import Mathlib

/-!
Formal model of the glTF resource import core (`src/import.rs`): URI scheme
classification, resource byte resolution, buffer materialization (embedded
blob consumption, 4-byte padding, length validation) and image format
determination.

Modelling conventions.  Rust string slices are modelled as `List Char`
(every string operation the code performs — `contains(':')`,
`strip_prefix`, `split(";base64,")`, `rsplit('.')`, literal comparison —
is character-wise), byte vectors as `List Nat` (each element a byte
value), fallible calls as `Except`, and a Rust panic as an `Option.none`
result.  The external collaborators that the spec places out of scope
(the base64 decoder, percent-decoding of relative paths, the image
decoder, the optional content-sniffing capability, and the injected fetch
capability) are passed in as function parameters, mirroring the spec's
interface boundary and the code's injected `fetcher`.
-/

abbrev CharSeq := List Char

abbrev ByteSeq := List Nat

/-- The crate `Error` variants that the import core can produce or receive
from the fetch capability (`Io`, `Base64`, `UnsupportedScheme`,
`ExternalReferenceInSliceImport`, `MissingBlob`, `BufferLength`,
`UnsupportedImageEncoding`, `Image`).  Payloads of wrapped foreign error
types are dropped; `BufferLength` keeps its structured context. -/
inductive GError where
  | ioError
  | base64
  | unsupportedScheme
  | externalReferenceInSliceImport
  | missingBlob
  | bufferLength (buffer : Nat) (expected : Nat) (actual : Nat)
  | unsupportedImageEncoding
  | image
deriving DecidableEq

/-- `image_crate::ImageFormat` restricted to the two variants the code
recognises (`Png`, `Jpeg`). -/
inductive ImageFormat where
  | png
  | jpeg
deriving DecidableEq

/-- `Scheme<'a>`: the transient classification of a URI string. -/
inductive Scheme where
  | data (mime : Option CharSeq) (payload : CharSeq)
  | file (path : CharSeq)
  | relative (path : CharSeq)
  | unsupported
deriving DecidableEq

/-- Rust `str::strip_prefix`. -/
def stripPrefixList : CharSeq → CharSeq → Option CharSeq
  | [], s => some s
  | _ :: _, [] => none
  | p :: ps, c :: cs => if p = c then stripPrefixList ps cs else none

/-- One step of Rust `str::split`: locate the first occurrence of the
separator `sc :: sctl` in the string, returning the piece before it and
the remainder after it (`none` when the separator does not occur). -/
def findSepSplit (sc : Char) (sctl : CharSeq) : CharSeq → Option (CharSeq × CharSeq)
  | [] => none
  | c :: cs =>
    match (if c = sc then stripPrefixList sctl cs else none) with
    | some rest => some ([], rest)
    | none =>
      match findSepSplit sc sctl cs with
      | none => none
      | some (pre, post) => some (c :: pre, post)

/-- The first two items produced by `rest.split(sep)` — the code's
`(it.next(), it.next())`.  `split` yields the segments between consecutive
non-overlapping occurrences of the separator, so the first item is the
segment before the first occurrence (the whole string when the separator
is absent, hence always `some`) and the second item is the segment before
the following occurrence. -/
def splitFirstTwo (sc : Char) (sctl : CharSeq) (s : CharSeq) : Option CharSeq × Option CharSeq :=
  match findSepSplit sc sctl s with
  | none => (some s, none)
  | some (p0, post) =>
    (some p0,
      some (match findSepSplit sc sctl post with
            | none => post
            | some (p1, _) => p1))

/-- Rust `uri.rsplit('.').next()`: the segment after the last occurrence
of the character, or the whole string when the character does not occur
(`rsplit` always yields at least one segment, so `next()` is `Some`). -/
def rsplitFirst (sc : Char) (s : CharSeq) : CharSeq :=
  (s.reverse.takeWhile (fun c => c != sc)).reverse

section ImportModel

variable {β δ : Type}
variable (b64decode : CharSeq → Except Unit ByteSeq)
variable (urldecode : CharSeq → Except Unit CharSeq)
variable (guessFormat : ByteSeq → Option ImageFormat)
variable (loadImage : ByteSeq → ImageFormat → Except Unit δ)

/-- `Scheme::parse`.  The branch order follows the source: a string
containing a colon is matched against the `data:`, `file://`, `file:`
prefixes in that order and is `Unsupported` otherwise; a string with no
colon is a relative path whose percent-decoding is `unwrap`ped — a
decoding failure panics, modelled as `none`.  In the `data:` branch the
code matches on the first two items of `rest.split(";base64,")`:
`(m0, Some m1)` gives `Data(m0, m1)`, `(Some m0, None)` gives
`Data(None, m0)`, and the remaining (unreachable) pattern gives
`Unsupported`. -/
def Scheme.parse (uri : CharSeq) : Option Scheme :=
  if ':' ∈ uri then
    some
      (match stripPrefixList "data:".data uri with
      | some rest =>
        match splitFirstTwo ';' "base64,".data rest with
        | (m0opt, some m1) => Scheme.data m0opt m1
        | (some m0, none) => Scheme.data none m0
        | (none, none) => Scheme.unsupported
      | none =>
        match stripPrefixList "file://".data uri with
        | some rest => Scheme.file rest
        | none =>
          match stripPrefixList "file:".data uri with
          | some rest => Scheme.file rest
          | none => Scheme.unsupported)
  else
    match urldecode uri with
    | .ok path => some (Scheme.relative path)
    | .error _ => none

/-- `Scheme::read`: resolve a URI to raw bytes.  Inline data is
base64-decoded (`Error::Base64` on failure), a file reference delegates to
`fetcher(None, path)`, a relative path delegates to `fetcher(base, path)`
only when a base directory is present and is otherwise
`ExternalReferenceInSliceImport`, and an unsupported scheme is
`UnsupportedScheme`.  A panic inside `Scheme::parse` propagates
(`none`). -/
def Scheme.read (base : Option β) (uri : CharSeq)
    (fetcher : Option β → CharSeq → Except GError ByteSeq) :
    Option (Except GError ByteSeq) :=
  match Scheme.parse urldecode uri with
  | none => none
  | some (.data _ payload) =>
    some ((b64decode payload).mapError fun _ => GError.base64)
  | some (.file path) => some (fetcher none path)
  | some (.relative path) =>
    match base with
    | some _ => some (fetcher base path)
    | none => some (.error .externalReferenceInSliceImport)
  | some .unsupported => some (.error .unsupportedScheme)

end ImportModel

/-- The `while data.len() % 4 != 0 { data.push(0) }` padding loop of
`buffer::Data::from_source_and_blob`, one appended zero per iteration. -/
def padTo4 (data : ByteSeq) : ByteSeq :=
  if h : data.length % 4 = 0 then data
  else padTo4 (data ++ [0])
termination_by (4 - data.length % 4) % 4
decreasing_by
  simp only [List.length_append, List.length_cons, List.length_nil]
  omega

/-- `buffer::Source`: a buffer declaration's source — a URI string or the
binary container's embedded blob (`Bin`). -/
inductive BufSource where
  | uri (uri : CharSeq)
  | bin
deriving DecidableEq

/-- A buffer declaration as exposed by the document model (out-of-scope
collaborator): declared byte length and source.  Its index is its
position in the document's buffer list. -/
structure BufferDecl where
  length : Nat
  source : BufSource
deriving DecidableEq

/-- `buffer::view` reference data for a buffer-view-sourced image: parent
buffer index, byte offset and byte length. -/
structure BufView where
  buffer : Nat
  offset : Nat
  length : Nat
deriving DecidableEq

/-- `image::Source`: an image declaration's source — a URI with optional
MIME type, or a buffer view with a MIME type. -/
inductive ImgSource where
  | uri (uri : CharSeq) (mime_type : Option CharSeq)
  | view (view : BufView) (mime_type : CharSeq)

/-- The part of the glTF document model the import core consumes: the
ordered buffer declarations and image sources. -/
structure GltfDocument where
  buffers : List BufferDecl
  images : List ImgSource

section Materialize

variable {β δ : Type}
variable (b64decode : CharSeq → Except Unit ByteSeq)
variable (urldecode : CharSeq → Except Unit CharSeq)
variable (guessFormat : ByteSeq → Option ImageFormat)
variable (loadImage : ByteSeq → ImageFormat → Except Unit δ)

/-- `buffer::Data::from_source_and_blob`: resolve the source (URI via
`Scheme::read`, or `blob.take()` failing with `MissingBlob` when the slot
is empty), then pad with zeros to a 4-byte boundary.  The returned pair
carries the result and the blob slot's state after the call (the slot is
emptied by `take` in the `Bin` branch and untouched in the `Uri`
branch); `none` models a panic. -/
def fromSourceAndBlob (source : BufSource) (blob : Option ByteSeq)
    (base : Option β) (fetcher : Option β → CharSeq → Except GError ByteSeq) :
    Option (Except GError ByteSeq × Option ByteSeq) :=
  match source with
  | .uri uri =>
    match Scheme.read b64decode urldecode base uri fetcher with
    | none => none
    | some r => some (r.map padTo4, blob)
  | .bin =>
    match blob with
    | some b => some (.ok (padTo4 b), none)
    | none => some (.error .missingBlob, none)

/-- `buffer::Data::from_source`: the public constructor without a blob
argument; it calls `from_source_and_blob` with a fresh `None` slot and
discards the slot's final state. -/
def fromSource (source : BufSource) (base : Option β)
    (fetcher : Option β → CharSeq → Except GError ByteSeq) :
    Option (Except GError ByteSeq) :=
  (fromSourceAndBlob b64decode urldecode source none base fetcher).map Prod.fst

/-- The loop of `import_buffers` starting at buffer index `idx`: each
declaration is materialized via `from_source_and_blob` (threading the blob
slot), checked against its declared length (`BufferLength` with the
buffer's index, expected and actual lengths when the materialized payload
is too short), and collected in order.  The first error aborts. -/
def importBuffersFrom (idx : Nat) (decls : List BufferDecl)
    (blob : Option ByteSeq) (base : Option β)
    (fetcher : Option β → CharSeq → Except GError ByteSeq) :
    Option (Except GError (List ByteSeq)) :=
  match decls with
  | [] => some (.ok [])
  | d :: rest =>
    match fromSourceAndBlob b64decode urldecode d.source blob base fetcher with
    | none => none
    | some (.error e, _) => some (.error e)
    | some (.ok data, blob2) =>
      if data.length < d.length then
        some (.error (.bufferLength idx d.length data.length))
      else
        match importBuffersFrom (idx + 1) rest blob2 base fetcher with
        | none => none
        | some (.error e) => some (.error e)
        | some (.ok bufs) => some (.ok (data :: bufs))

/-- `import_buffers`: materialize every declared buffer in document
order. -/
def importBuffers (decls : List BufferDecl) (blob : Option ByteSeq)
    (base : Option β) (fetcher : Option β → CharSeq → Except GError ByteSeq) :
    Option (Except GError (List ByteSeq)) :=
  importBuffersFrom b64decode urldecode 0 decls blob base fetcher

/-- The `let encoded_format = match mime_type { ... }` computation of
`image::Data::from_source` in the URI-sourced, non-inline branch: a
declared `image/png` or `image/jpeg` MIME type decides directly; any
other declared MIME type falls back to content sniffing; with no declared
MIME type the segment after the last `'.'` of the URI is tried
(`png`, `jpg`, `jpeg`) before content sniffing; a failed sniff is
`UnsupportedImageEncoding` (the code's early `return Err`). -/
def encodedFormatUri (mime_type : Option CharSeq) (uri : CharSeq)
    (encoded : ByteSeq) : Except GError ImageFormat :=
  match mime_type with
  | some m =>
    if m = "image/png".data then .ok .png
    else if m = "image/jpeg".data then .ok .jpeg
    else
      match guessFormat encoded with
      | some format => .ok format
      | none => .error .unsupportedImageEncoding
  | none =>
    if rsplitFirst '.' uri = "png".data then .ok .png
    else if rsplitFirst '.' uri = "jpg".data then .ok .jpeg
    else if rsplitFirst '.' uri = "jpeg".data then .ok .jpeg
    else
      match guessFormat encoded with
      | some format => .ok format
      | none => .error .unsupportedImageEncoding

/-- `image::Data::from_source`.  `guessFormat` models the
`guess_format` closure (the `guess_mime_type` feature's content sniffing;
the featureless build is `fun _ => none`), `loadImage` models
`image_crate::load_from_memory_with_format` (failure becomes
`Error::Image`, here `GError.image`).  A data URI with a declared media
type is decoded inline; `Unsupported` is fatal; every other scheme
(including a data URI without a media type) fetches bytes through
`Scheme::read` and determines the format via `encodedFormatUri`.  A
buffer-view source slices the already-materialized parent buffer (an
out-of-bounds index or range is a Rust panic, `none`). -/
def imageFromSource (source : ImgSource) (buffer_data : List ByteSeq)
    (base : Option β) (fetcher : Option β → CharSeq → Except GError ByteSeq) :
    Option (Except GError δ) :=
  match source with
  | .uri uri mime_type =>
    match Scheme.parse urldecode uri with
    | none => none
    | some (.data (some annoying_case) b64payload) =>
      some
        (match (b64decode b64payload).mapError (fun _ => GError.base64) with
        | .error e => .error e
        | .ok encoded_image =>
          match
            (if annoying_case = "image/png".data then Except.ok ImageFormat.png
             else if annoying_case = "image/jpeg".data then Except.ok ImageFormat.jpeg
             else
               match guessFormat encoded_image with
               | some format => Except.ok format
               | none => Except.error GError.unsupportedImageEncoding) with
          | .error e => .error e
          | .ok encoded_format =>
            match loadImage encoded_image encoded_format with
            | .ok img => .ok img
            | .error _ => .error .image)
    | some .unsupported => some (.error .unsupportedScheme)
    | some _ =>
      match Scheme.read b64decode urldecode base uri fetcher with
      | none => none
      | some r =>
        some
          (match r with
          | .error e => .error e
          | .ok encoded_image =>
            match encodedFormatUri guessFormat mime_type uri encoded_image with
            | .error e => .error e
            | .ok encoded_format =>
              match loadImage encoded_image encoded_format with
              | .ok img => .ok img
              | .error _ => .error .image)
  | .view v mime_type =>
    match buffer_data.get? v.buffer with
    | none => none
    | some parent_buffer_data =>
      if v.offset + v.length ≤ parent_buffer_data.length then
        let encoded_image := (parent_buffer_data.drop v.offset).take v.length
        some
          (match
            (if mime_type = "image/png".data then Except.ok ImageFormat.png
             else if mime_type = "image/jpeg".data then Except.ok ImageFormat.jpeg
             else
               match guessFormat encoded_image with
               | some format => Except.ok format
               | none => Except.error GError.unsupportedImageEncoding) with
          | .error e => .error e
          | .ok encoded_format =>
            match loadImage encoded_image encoded_format with
            | .ok img => .ok img
            | .error _ => .error .image)
      else none

/-- `import_images`: materialize every declared image in document
order. -/
def importImages (images : List ImgSource) (buffer_data : List ByteSeq)
    (base : Option β) (fetcher : Option β → CharSeq → Except GError ByteSeq) :
    Option (Except GError (List δ)) :=
  match images with
  | [] => some (.ok [])
  | im :: rest =>
    match imageFromSource b64decode urldecode guessFormat loadImage im buffer_data base fetcher with
    | none => none
    | some (.error e) => some (.error e)
    | some (.ok img) =>
      match importImages rest buffer_data base fetcher with
      | none => none
      | some (.error e) => some (.error e)
      | some (.ok imgs) => some (.ok (img :: imgs))

/-- `import_impl`: buffers first, then images against the completed
buffer payloads (the returned document is unchanged and omitted). -/
def importImpl (doc : GltfDocument) (blob : Option ByteSeq) (base : Option β)
    (fetcher : Option β → CharSeq → Except GError ByteSeq) :
    Option (Except GError (List ByteSeq × List δ)) :=
  match importBuffers b64decode urldecode doc.buffers blob base fetcher with
  | none => none
  | some (.error e) => some (.error e)
  | some (.ok buffer_data) =>
    match importImages b64decode urldecode guessFormat loadImage doc.images buffer_data base fetcher with
    | none => none
    | some (.error e) => some (.error e)
    | some (.ok image_data) => some (.ok (buffer_data, image_data))

end Materialize

/-- Ordered fallback of two fallible lookups: the first stage
short-circuits on success. -/
def firstSome (a b : Option ImageFormat) : Option ImageFormat :=
  match a with
  | some f => some f
  | none => b

/-- Modelled from the spec: the explicit-MIME stage of the format chain —
succeeds exactly on the two recognized image media types. -/
def mimeStageSpec : Option CharSeq → Option ImageFormat
  | some m =>
    if m = "image/png".data then some .png
    else if m = "image/jpeg".data then some .jpeg
    else none
  | none => none

/-- Modelled from the spec: the URI-file-extension stage of the format
chain (`.png`, `.jpg`/`.jpeg`), reading the segment after the last
`'.'`. -/
def uriExtStageSpec (uri : CharSeq) : Option ImageFormat :=
  if rsplitFirst '.' uri = "png".data then some .png
  else if rsplitFirst '.' uri = "jpg".data then some .jpeg
  else if rsplitFirst '.' uri = "jpeg".data then some .jpeg
  else none

/-- Modelled from the spec: the claimed three-stage ordered chain for the
URI-sourced non-inline case — explicit MIME type, then URI extension,
then content sniffing, each stage short-circuiting on first success. -/
def specFormatChain (guessFormat : ByteSeq → Option ImageFormat)
    (mime_type : Option CharSeq) (uri : CharSeq) (encoded : ByteSeq) :
    Option ImageFormat :=
  firstSome (mimeStageSpec mime_type)
    (firstSome (uriExtStageSpec uri) (guessFormat encoded))

/-- The chain the code actually implements: with a declared MIME type the
recognized-MIME stage falls back directly to sniffing (the extension
stage is skipped); without one the extension stage falls back to
sniffing. -/
def codeFormatChain (guessFormat : ByteSeq → Option ImageFormat)
    (mime_type : Option CharSeq) (uri : CharSeq) (encoded : ByteSeq) :
    Option ImageFormat :=
  match mime_type with
  | some m => firstSome (mimeStageSpec (some m)) (guessFormat encoded)
  | none => firstSome (uriExtStageSpec uri) (guessFormat encoded)

/-- Membership in the base64 alphabet (`A`–`Z`, `a`–`z`, `0`–`9`, `+`,
`/`, and the `=` padding character). -/
def isBase64Char (c : Char) : Bool :=
  ('A' ≤ c && c ≤ 'Z') || ('a' ≤ c && c ≤ 'z') || ('0' ≤ c && c ≤ '9') ||
    c == '+' || c == '/' || c == '='

/-- Value of a base64 alphabet character. -/
def b64Val (c : Char) : Option Nat :=
  if 'A' ≤ c ∧ c ≤ 'Z' then some (c.toNat - 'A'.toNat)
  else if 'a' ≤ c ∧ c ≤ 'z' then some (c.toNat - 'a'.toNat + 26)
  else if '0' ≤ c ∧ c ≤ '9' then some (c.toNat - '0'.toNat + 52)
  else if c = '+' then some 62
  else if c = '/' then some 63
  else none

/-- Values of a base64 character sequence, `none` on a foreign
character. -/
def b64Vals : CharSeq → Option (List Nat)
  | [] => some []
  | c :: cs =>
    match b64Val c, b64Vals cs with
    | some v, some vs => some (v :: vs)
    | _, _ => none

/-- Reassemble 6-bit groups into bytes, four groups to three bytes, with
the usual trailing-group rule (a lone trailing group is malformed). -/
def b64Chunks : List Nat → Except Unit ByteSeq
  | [] => .ok []
  | [_] => .error ()
  | [a, b] => .ok [a * 4 + b / 16]
  | [a, b, c] => .ok [a * 4 + b / 16, (b % 16) * 16 + c / 4]
  | a :: b :: c :: d :: rest =>
    match b64Chunks rest with
    | .ok tail => .ok ((a * 4 + b / 16) :: ((b % 16) * 16 + c / 4) :: ((c % 4) * 64 + d) :: tail)
    | .error e => .error e

/-- Strip trailing `=` padding. -/
def dropB64Padding (s : CharSeq) : CharSeq :=
  (s.reverse.dropWhile (fun c => c == '=')).reverse

/-- Modelled from the spec: the base64 decoder is an external collaborator
(spec section 1, out of scope, "treated as pure functions the core calls
into"); this reference RFC 4648 decoder instantiates the `b64decode`
parameter in concrete examples. -/
def base64RefDecode (s : CharSeq) : Except Unit ByteSeq :=
  match b64Vals (dropB64Padding s) with
  | none => .error ()
  | some vs => b64Chunks vs

/-- A percent-decoder instance that succeeds with the input unchanged
(the behaviour of `urlencoding::decode` on strings without `%`
escapes). -/
def idDecode : CharSeq → Except Unit CharSeq := fun s => .ok s

/-- A percent-decoder instance matching `urlencoding::decode` on the
input `"%FF"`: the escape decodes to the lone byte `0xFF`, which is not
valid UTF-8, so decoding fails; other inputs (without escapes) are
returned unchanged. -/
def percentDecodeFF : CharSeq → Except Unit CharSeq :=
  fun s => if s = "%FF".data then .error () else .ok s

/-- A base64-decoder instance that always fails (never reached in the
examples that use it). -/
def failB64 : CharSeq → Except Unit ByteSeq := fun _ => .error ()

/-- A content-sniffing capability that never recognizes a format — the
build without the `guess_mime_type` feature. -/
def noGuess : ByteSeq → Option ImageFormat := fun _ => none

/-- An image loader that returns the format it was handed, exposing the
format-determination outcome. -/
def echoLoad : ByteSeq → ImageFormat → Except Unit ImageFormat :=
  fun _ format => .ok format

/-- A fetch capability returning fixed bytes for every request. -/
def fetchConst (bs : ByteSeq) : Option Unit → CharSeq → Except GError ByteSeq :=
  fun _ _ => .ok bs

/-- A fetch capability that always fails with an I/O error. -/
def fetchFail : Option Unit → CharSeq → Except GError ByteSeq :=
  fun _ _ => .error .ioError

/-! ### Helper lemmas -/

theorem pad_done (l : ByteSeq) (h : l.length % 4 = 0) : padTo4 l = l := by
  rw [padTo4]
  exact dif_pos h

theorem pad_step (l : ByteSeq) (h : ¬ l.length % 4 = 0) :
    padTo4 l = padTo4 (l ++ [0]) := by
  rw [padTo4]
  exact dif_neg h

theorem padTo4_eq_append (l : ByteSeq) :
    padTo4 l = l ++ List.replicate ((4 - l.length % 4) % 4) 0 := by
  have h4 : l.length % 4 = 0 ∨ l.length % 4 = 1 ∨ l.length % 4 = 2 ∨ l.length % 4 = 3 := by
    omega
  rcases h4 with h | h | h | h
  · rw [pad_done l h, h]
    simp
  · rw [pad_step l (by omega),
        pad_step (l ++ [0]) (by simp [List.length_append]; omega),
        pad_step ((l ++ [0]) ++ [0]) (by simp [List.length_append]; omega),
        pad_done (((l ++ [0]) ++ [0]) ++ [0]) (by simp [List.length_append]; omega), h]
    simp [List.append_assoc, List.replicate_succ]
  · rw [pad_step l (by omega),
        pad_step (l ++ [0]) (by simp [List.length_append]; omega),
        pad_done ((l ++ [0]) ++ [0]) (by simp [List.length_append]; omega), h]
    simp [List.append_assoc, List.replicate_succ]
  · rw [pad_step l (by omega),
        pad_done (l ++ [0]) (by simp [List.length_append]; omega), h]
    simp [List.replicate_succ]

theorem padTo4_length (l : ByteSeq) :
    (padTo4 l).length = ((l.length + 3) / 4) * 4 := by
  rw [padTo4_eq_append]
  simp only [List.length_append, List.length_replicate]
  omega

theorem padTo4_take (l : ByteSeq) : (padTo4 l).take l.length = l := by
  rw [padTo4_eq_append]
  exact List.take_left _ _

theorem padTo4_drop_zero (l : ByteSeq) : ∀ b ∈ (padTo4 l).drop l.length, b = 0 := by
  rw [padTo4_eq_append, List.drop_left]
  exact fun b hb => List.eq_of_mem_replicate hb

theorem stripPrefixList_append (p t : CharSeq) : stripPrefixList p (p ++ t) = some t := by
  induction p with
  | nil => rfl
  | cons c cs ih => simp [stripPrefixList, ih]

theorem findSepSplit_not_mem (sc : Char) (sctl s : CharSeq) (h : ∀ c ∈ s, ¬ c = sc) :
    findSepSplit sc sctl s = none := by
  induction s with
  | nil => rfl
  | cons c cs ih =>
    rw [findSepSplit, if_neg (h c (by simp)), ih (fun x hx => h x (by simp [hx]))]

theorem strip_extend_none (sc : Char) : ∀ (pre s ztail : CharSeq),
    stripPrefixList pre s = none → (∀ c ∈ pre, ¬ c = sc) →
    stripPrefixList pre (s ++ sc :: ztail) = none := by
  intro pre
  induction pre with
  | nil =>
    intro s ztail h _
    simp [stripPrefixList] at h
  | cons p ps ih =>
    intro s ztail h hmem
    cases s with
    | nil =>
      have hp : ¬ p = sc := hmem p (by simp)
      simp only [List.nil_append, stripPrefixList, if_neg hp]
    | cons a as =>
      rw [stripPrefixList] at h
      rw [List.cons_append, stripPrefixList]
      by_cases hpa : p = a
      · rw [if_pos hpa] at h ⊢
        exact ih as ztail h (fun c hc => hmem c (by simp [hc]))
      · rw [if_neg hpa]

theorem findSepSplit_cons_none (sc : Char) (sctl : CharSeq) (c : Char) (cs : CharSeq)
    (h : findSepSplit sc sctl (c :: cs) = none) :
    (if c = sc then stripPrefixList sctl cs else none) = none
      ∧ findSepSplit sc sctl cs = none := by
  rw [findSepSplit] at h
  cases hif : (if c = sc then stripPrefixList sctl cs else none) with
  | some r =>
    rw [hif] at h
    simp at h
  | none =>
    rw [hif] at h
    refine ⟨rfl, ?_⟩
    cases hr : findSepSplit sc sctl cs with
    | none => rfl
    | some pr =>
      rw [hr] at h
      rcases pr with ⟨pre, post⟩
      simp at h

theorem findSepSplit_append_no_occur (sc : Char) (sctl b : CharSeq)
    (hsctl : ∀ c ∈ sctl, ¬ c = sc) :
    ∀ m : CharSeq, findSepSplit sc sctl m = none →
    findSepSplit sc sctl (m ++ sc :: (sctl ++ b)) = some (m, b) := by
  intro m
  induction m with
  | nil =>
    intro _
    rw [List.nil_append, findSepSplit, if_pos rfl, stripPrefixList_append]
  | cons c cs ih =>
    intro h1
    obtain ⟨hhead, htail⟩ := findSepSplit_cons_none sc sctl c cs h1
    rw [List.cons_append, findSepSplit]
    by_cases hc : c = sc
    · have hstrip : stripPrefixList sctl cs = none := by
        rw [if_pos hc] at hhead
        exact hhead
      have hstrip2 : stripPrefixList sctl (cs ++ sc :: (sctl ++ b)) = none :=
        strip_extend_none sc sctl cs (sctl ++ b) hstrip hsctl
      rw [if_pos hc, hstrip2]
      dsimp only
      rw [ih htail]
    · rw [if_neg hc]
      dsimp only
      rw [ih htail]

theorem parse_data_uri (urldecode : CharSeq → Except Unit CharSeq) (mime b64 : CharSeq)
    (hm : findSepSplit ';' "base64,".data mime = none) (hb : ∀ c ∈ b64, ¬ c = ';') :
    Scheme.parse urldecode ("data:".data ++ (mime ++ (";base64,".data ++ b64)))
      = some (.data (some mime) b64) := by
  have hcolon : ':' ∈ "data:".data ++ (mime ++ (";base64,".data ++ b64)) :=
    List.mem_append_left _ (by decide)
  have h1 : findSepSplit ';' ['b', 'a', 's', 'e', '6', '4', ',']
      (mime ++ ([';', 'b', 'a', 's', 'e', '6', '4', ','] ++ b64)) = some (mime, b64) :=
    findSepSplit_append_no_occur ';' ['b', 'a', 's', 'e', '6', '4', ','] b64 (by decide)
      mime hm
  have h2 : findSepSplit ';' ['b', 'a', 's', 'e', '6', '4', ','] b64 = none :=
    findSepSplit_not_mem ';' ['b', 'a', 's', 'e', '6', '4', ','] b64 hb
  simp only [Scheme.parse, splitFirstTwo]
  rw [if_pos hcolon, stripPrefixList_append]
  dsimp only
  rw [h1]
  dsimp only
  rw [h2]

theorem read_parse_data {β : Type} (b64decode : CharSeq → Except Unit ByteSeq)
    (urldecode : CharSeq → Except Unit CharSeq) (uri payload : CharSeq)
    (mimeopt : Option CharSeq) (base : Option β)
    (fetcher : Option β → CharSeq → Except GError ByteSeq)
    (h : Scheme.parse urldecode uri = some (.data mimeopt payload)) :
    Scheme.read b64decode urldecode base uri fetcher
      = some ((b64decode payload).mapError fun _ => GError.base64) := by
  simp only [Scheme.read, h]

theorem read_parse_file {β : Type} (b64decode : CharSeq → Except Unit ByteSeq)
    (urldecode : CharSeq → Except Unit CharSeq) (uri path : CharSeq) (base : Option β)
    (fetcher : Option β → CharSeq → Except GError ByteSeq)
    (h : Scheme.parse urldecode uri = some (.file path)) :
    Scheme.read b64decode urldecode base uri fetcher = some (fetcher none path) := by
  simp only [Scheme.read, h]

theorem read_parse_relative_none {β : Type} (b64decode : CharSeq → Except Unit ByteSeq)
    (urldecode : CharSeq → Except Unit CharSeq) (uri path : CharSeq)
    (fetcher : Option β → CharSeq → Except GError ByteSeq)
    (h : Scheme.parse urldecode uri = some (.relative path)) :
    Scheme.read b64decode urldecode (none : Option β) uri fetcher
      = some (.error .externalReferenceInSliceImport) := by
  simp only [Scheme.read, h]

theorem importBuffersFrom_single {β : Type} (b64decode : CharSeq → Except Unit ByteSeq)
    (urldecode : CharSeq → Except Unit CharSeq) (idx N : Nat) (src : BufSource)
    (blob blob2 : Option ByteSeq) (base : Option β)
    (fetcher : Option β → CharSeq → Except GError ByteSeq) (data : ByteSeq)
    (h : fromSourceAndBlob b64decode urldecode src blob base fetcher = some (.ok data, blob2)) :
    importBuffersFrom b64decode urldecode idx [⟨N, src⟩] blob base fetcher
      = if data.length < N then some (.error (.bufferLength idx N data.length))
        else some (.ok [data]) := by
  simp only [importBuffersFrom, h]

theorem importBuffersFrom_relative_no_ok {β : Type} (b64decode : CharSeq → Except Unit ByteSeq)
    (urldecode : CharSeq → Except Unit CharSeq)
    (fetcher : Option β → CharSeq → Except GError ByteSeq) :
    ∀ (decls : List BufferDecl) (idx : Nat) (blob : Option ByteSeq) (i : Nat) (d : BufferDecl)
      (uri p : CharSeq),
      decls.get? i = some d → d.source = .uri uri →
      Scheme.parse urldecode uri = some (.relative p) →
      ∀ bs, importBuffersFrom b64decode urldecode idx decls blob none fetcher ≠ some (.ok bs) := by
  intro decls
  induction decls with
  | nil =>
    intro idx blob i d uri p hget
    simp at hget
  | cons d0 rest ih =>
    intro idx blob i d uri p hget hsrc hparse bs
    cases i with
    | zero =>
      simp only [List.get?] at hget
      cases hget
      have hread : Scheme.read b64decode urldecode (none : Option β) uri fetcher
          = some (.error .externalReferenceInSliceImport) :=
        read_parse_relative_none b64decode urldecode uri p fetcher hparse
      simp only [importBuffersFrom, fromSourceAndBlob, hsrc, hread]
      simp [Except.map]
    | succ j =>
      simp only [List.get?] at hget
      simp only [importBuffersFrom]
      cases hf : fromSourceAndBlob b64decode urldecode d0.source blob none fetcher with
      | none => simp
      | some pr =>
        rcases pr with ⟨r, blob2⟩
        cases r with
        | error e => simp
        | ok data =>
          dsimp only
          by_cases hlen : data.length < d0.length
          · rw [if_pos hlen]
            simp
          · rw [if_neg hlen]
            cases hr : importBuffersFrom b64decode urldecode (idx + 1) rest blob2 none fetcher with
            | none => simp
            | some r2 =>
              cases r2 with
              | error e => simp
              | ok bufs => exact absurd hr (ih (idx + 1) blob2 j d uri p hget hsrc hparse bufs)

/-! ### Claim theorems -/

/-- C1, counterexample to the claim as stated: a buffer declaring length
`N = 4` whose source yields `M = 3` actual bytes is imported
*successfully* (the payload is padded to `[1, 2, 3, 0]`, which passes the
length check), although `M < N` — so "fails iff `M < N`" is false. -/
theorem c1_counterexample :
    importBuffers failB64 idDecode [⟨4, .uri "file:f".data⟩] none none (fetchConst [1, 2, 3])
        = some (.ok [[1, 2, 3, 0]])
      ∧ 3 < 4 := by
  have hp : padTo4 [1, 2, 3] = [1, 2, 3, 0] := by
    rw [pad_step [1, 2, 3] (by decide)]
    exact pad_done [1, 2, 3, 0] (by decide)
  have hs := importBuffersFrom_single failB64 idDecode 0 4 (.uri "file:f".data) none none
    (none : Option Unit) (fetchConst [1, 2, 3]) (padTo4 [1, 2, 3]) rfl
  refine ⟨?_, by omega⟩
  simp only [importBuffers]
  rw [hs, hp]
  norm_num

/-- C1 (corrected): the length check runs on the *padded* payload.  For a
buffer declaration of length `N` at index `idx` whose source yields `raw`
(`M = raw.length` bytes), the import step fails with
`BufferLength (idx, N, ceil(M/4)*4)` iff `ceil(M/4)*4 < N` and succeeds
with the padded payload iff `N ≤ ceil(M/4)*4` (so it can succeed even
when `M < N`). -/
theorem c1_length_validation_padded {β : Type} (b64decode : CharSeq → Except Unit ByteSeq)
    (urldecode : CharSeq → Except Unit CharSeq) (idx N : Nat) (uri : CharSeq)
    (blob : Option ByteSeq) (base : Option β)
    (fetcher : Option β → CharSeq → Except GError ByteSeq) (raw : ByteSeq)
    (h : Scheme.read b64decode urldecode base uri fetcher = some (.ok raw)) :
    (importBuffersFrom b64decode urldecode idx [⟨N, .uri uri⟩] blob base fetcher
        = some (.error (.bufferLength idx N (((raw.length + 3) / 4) * 4)))
      ↔ ((raw.length + 3) / 4) * 4 < N)
    ∧ (importBuffersFrom b64decode urldecode idx [⟨N, .uri uri⟩] blob base fetcher
        = some (.ok [padTo4 raw])
      ↔ N ≤ ((raw.length + 3) / 4) * 4) := by
  have hfsb : fromSourceAndBlob b64decode urldecode (.uri uri) blob base fetcher
      = some (.ok (padTo4 raw), blob) := by
    simp only [fromSourceAndBlob, h]
    rfl
  have hs := importBuffersFrom_single b64decode urldecode idx N (.uri uri) blob blob base
    fetcher (padTo4 raw) hfsb
  rw [hs, padTo4_length raw]
  by_cases hN : ((raw.length + 3) / 4) * 4 < N
  · rw [if_pos hN]
    constructor
    · exact iff_of_true rfl hN
    · refine iff_of_false (fun hEq => ?_) (by omega)
      simp at hEq
  · rw [if_neg hN]
    constructor
    · refine iff_of_false (fun hEq => ?_) hN
      simp at hEq
    · exact iff_of_true rfl (by omega)

/-- C1, witness for the corrected claim: a buffer declaring length 2
materialized from a single byte succeeds because the padded length is
4 ≥ 2. -/
theorem c1_length_validation_padded_witness :
    importBuffersFrom failB64 idDecode 0 [⟨2, BufSource.uri "file:f".data⟩] none none
        (fetchConst [9])
      = some (.ok [padTo4 [9]]) :=
  (c1_length_validation_padded failB64 idDecode 0 2 "file:f".data none none
    (fetchConst [9]) [9] rfl).2.mpr (by decide)

/-- C4 (confirmed): the embedded blob slot is take-once — starting from a
slot holding `bs`, materializing a blob-sourced buffer succeeds with the
padded bytes and leaves the slot empty, and materializing a second
blob-sourced buffer from the now-empty slot fails with `MissingBlob`
rather than yielding empty bytes. -/
theorem c4_blob_take_once {β : Type} (b64decode : CharSeq → Except Unit ByteSeq)
    (urldecode : CharSeq → Except Unit CharSeq) (bs : ByteSeq) (base : Option β)
    (fetcher : Option β → CharSeq → Except GError ByteSeq) :
    fromSourceAndBlob b64decode urldecode .bin (some bs) base fetcher
        = some (.ok (padTo4 bs), none)
      ∧ fromSourceAndBlob b64decode urldecode .bin none base fetcher
        = some (.error .missingBlob, none) :=
  ⟨rfl, rfl⟩

/-- C6 (confirmed): when a buffer's source yields `raw` (length `L`), the
materialized payload is `padTo4 raw` (for a URI source, and for the blob
source with the slot holding `raw`), whose length is `ceil(L/4)*4`, whose
first `L` bytes are `raw` unchanged, and whose appended bytes are all
zero. -/
theorem c6_padding {β : Type} (b64decode : CharSeq → Except Unit ByteSeq)
    (urldecode : CharSeq → Except Unit CharSeq) (uri : CharSeq) (blob : Option ByteSeq)
    (base : Option β) (fetcher : Option β → CharSeq → Except GError ByteSeq)
    (raw : ByteSeq)
    (h : Scheme.read b64decode urldecode base uri fetcher = some (.ok raw)) :
    fromSourceAndBlob b64decode urldecode (.uri uri) blob base fetcher
        = some (.ok (padTo4 raw), blob)
      ∧ fromSourceAndBlob b64decode urldecode .bin (some raw) base fetcher
        = some (.ok (padTo4 raw), none)
      ∧ (padTo4 raw).length = ((raw.length + 3) / 4) * 4
      ∧ (padTo4 raw).take raw.length = raw
      ∧ ∀ b ∈ (padTo4 raw).drop raw.length, b = 0 := by
  refine ⟨?_, rfl, padTo4_length raw, padTo4_take raw, padTo4_drop_zero raw⟩
  simp only [fromSourceAndBlob, h]
  rfl

/-- C6, witness at a concrete one-byte fetch. -/
theorem c6_padding_witness :
    fromSourceAndBlob failB64 idDecode (.uri "file:f".data) (some [5]) none (fetchConst [7])
        = some (.ok (padTo4 [7]), some [5])
      ∧ fromSourceAndBlob failB64 idDecode .bin (some [7]) (none : Option Unit) (fetchConst [7])
        = some (.ok (padTo4 [7]), none)
      ∧ (padTo4 [7]).length = ((List.length [7] + 3) / 4) * 4
      ∧ (padTo4 [7]).take (List.length [7]) = [7]
      ∧ ∀ b ∈ (padTo4 [7]).drop (List.length [7]), b = 0 :=
  c6_padding failB64 idDecode "file:f".data (some [5]) none (fetchConst [7]) [7] rfl

/-- C9 (confirmed): materializing a URI-sourced buffer leaves the blob
slot exactly as it was — whenever `from_source_and_blob` on a URI source
returns, the returned slot state equals the initial one. -/
theorem c9_uri_preserves_blob {β : Type} (b64decode : CharSeq → Except Unit ByteSeq)
    (urldecode : CharSeq → Except Unit CharSeq) (uri : CharSeq) (blob : Option ByteSeq)
    (base : Option β) (fetcher : Option β → CharSeq → Except GError ByteSeq)
    (pr : Except GError ByteSeq × Option ByteSeq)
    (h : fromSourceAndBlob b64decode urldecode (.uri uri) blob base fetcher = some pr) :
    pr.2 = blob := by
  simp only [fromSourceAndBlob] at h
  cases hr : Scheme.read b64decode urldecode base uri fetcher with
  | none => rw [hr] at h; cases h
  | some r => rw [hr] at h; cases h; rfl

/-- C9, witness: a URI-sourced materialization with a full blob slot
returns the slot untouched. -/
theorem c9_uri_preserves_blob_witness :
    (Prod.mk (Except.ok (padTo4 ([] : ByteSeq)) : Except GError ByteSeq)
        (some [5] : Option ByteSeq)).2 = some [5] :=
  c9_uri_preserves_blob failB64 idDecode "file:f".data (some [5]) none (fetchConst [])
    (.ok (padTo4 []), some [5]) rfl

/-- C10 (confirmed): the public `from_source` constructor supplies a
fresh empty blob slot, so a blob-sourced buffer declaration always fails
with `MissingBlob`, for every base directory and fetch capability. -/
theorem c10_from_source_bin_fails {β : Type} (b64decode : CharSeq → Except Unit ByteSeq)
    (urldecode : CharSeq → Except Unit CharSeq) (base : Option β)
    (fetcher : Option β → CharSeq → Except GError ByteSeq) :
    fromSource b64decode urldecode .bin base fetcher = some (.error .missingBlob) :=
  rfl

/-- C2, counterexample to the claim as stated: with declared MIME type
`image/webp` (unrecognized), URI `x.png` and no sniffing capability, the
code raises `UnsupportedImageEncoding` although the extension stage of
the claimed three-stage chain succeeds with `png` — the extension stage
is skipped whenever a MIME type is declared.  The third conjunct grounds
this in `image::Data::from_source` itself. -/
theorem c2_counterexample :
    encodedFormatUri noGuess (some "image/webp".data) "x.png".data []
        = .error .unsupportedImageEncoding
      ∧ specFormatChain noGuess (some "image/webp".data) "x.png".data [] = some .png
      ∧ imageFromSource failB64 idDecode noGuess echoLoad
          (.uri "x.png".data (some "image/webp".data)) [] (some ()) (fetchConst [])
        = some (.error .unsupportedImageEncoding) :=
  ⟨rfl, rfl, rfl⟩

/-- C2 (corrected): the format of a URI-sourced non-inline image is
determined by an ordered chain of fallible stages, each short-circuiting
on first success, but the chain depends on whether a MIME type is
declared: with a declared MIME type the stages are recognized-MIME then
content sniffing (the URI-extension stage is skipped); with no declared
MIME type the stages are URI extension then content sniffing; the
unsupported-image-encoding error is raised exactly when the applicable
stages all fail. -/
theorem c2_format_chain (guessFormat : ByteSeq → Option ImageFormat)
    (mime_type : Option CharSeq) (uri : CharSeq) (encoded : ByteSeq) :
    encodedFormatUri guessFormat mime_type uri encoded
      = match codeFormatChain guessFormat mime_type uri encoded with
        | some format => .ok format
        | none => .error .unsupportedImageEncoding := by
  cases mime_type with
  | none =>
    simp only [encodedFormatUri, codeFormatChain, uriExtStageSpec, firstSome]
    split_ifs <;> rfl
  | some m =>
    simp only [encodedFormatUri, codeFormatChain, mimeStageSpec, firstSome]
    split_ifs <;> rfl

/-- C3, counterexample to the claim as stated: on the colon-free URI
`"%FF"` percent-decoding fails (the decoded byte `0xFF` is not UTF-8),
and the resolver panics (`unwrap`, modelled `none`) — neither
`Scheme::parse` nor `Scheme::read` returns an error value to the
caller. -/
theorem c3_counterexample :
    Scheme.parse percentDecodeFF "%FF".data = none
      ∧ Scheme.read failB64 percentDecodeFF (none : Option Unit) "%FF".data fetchFail = none :=
  ⟨rfl, rfl⟩

/-- C3 (corrected): a URI containing no colon is classified as a relative
path carrying its percent-decoding when decoding succeeds; when
percent-decoding fails the resolver panics (diverges) instead of
propagating an error. -/
theorem c3_relative_decode (urldecode : CharSeq → Except Unit CharSeq) (uri : CharSeq)
    (h : ':' ∉ uri) :
    (∀ p, urldecode uri = .ok p → Scheme.parse urldecode uri = some (.relative p))
      ∧ (urldecode uri = .error () → Scheme.parse urldecode uri = none) := by
  constructor
  · intro p hp
    simp only [Scheme.parse]
    rw [if_neg h, hp]
  · intro hp
    simp only [Scheme.parse]
    rw [if_neg h, hp]

/-- C3, witness: a plain colon-free URI is classified relative with its
(successful) decoding. -/
theorem c3_relative_decode_witness :
    Scheme.parse idDecode "a".data = some (.relative "a".data) :=
  (c3_relative_decode idDecode "a".data (by decide)).1 "a".data rfl

/-- C5, counterexample to the claim as stated: a self-contained (no base
directory) import of a document that does contain a relative-path buffer
reference (`"rel"`, second buffer) fails with `UnsupportedScheme` — the
error of its *first* buffer — not with the external-reference error. -/
theorem c5_counterexample :
    importBuffers failB64 idDecode [⟨0, .uri "foo:bar".data⟩, ⟨0, .uri "rel".data⟩]
        none none fetchFail
        = some (.error .unsupportedScheme)
      ∧ Scheme.parse idDecode "rel".data = some (.relative "rel".data)
      ∧ GError.unsupportedScheme ≠ GError.externalReferenceInSliceImport :=
  ⟨rfl, rfl, by decide⟩

/-- C5 (corrected): resolving a relative-path URI with no base directory
fails with `ExternalReferenceInSliceImport` for every fetch capability
(the fetcher is never consulted); a no-base import whose document
contains a buffer with a relative-path URI can never succeed; and it
fails with exactly the external-reference error when the relative-path
buffer is the document's first declaration (an earlier declaration may
otherwise fail first with a different error). -/
theorem c5_external_reference {β : Type} (b64decode : CharSeq → Except Unit ByteSeq)
    (urldecode : CharSeq → Except Unit CharSeq) :
    (∀ (uri p : CharSeq) (fetcher : Option β → CharSeq → Except GError ByteSeq),
        Scheme.parse urldecode uri = some (.relative p) →
        Scheme.read b64decode urldecode (none : Option β) uri fetcher
          = some (.error .externalReferenceInSliceImport))
      ∧ (∀ (decls : List BufferDecl) (blob : Option ByteSeq)
          (fetcher : Option β → CharSeq → Except GError ByteSeq) (i : Nat) (d : BufferDecl)
          (uri p : CharSeq),
          decls.get? i = some d → d.source = .uri uri →
          Scheme.parse urldecode uri = some (.relative p) →
          ∀ bs, importBuffers b64decode urldecode decls blob none fetcher ≠ some (.ok bs))
      ∧ (∀ {δ : Type} (guessFormat : ByteSeq → Option ImageFormat)
          (loadImage : ByteSeq → ImageFormat → Except Unit δ) (N : Nat) (uri p : CharSeq)
          (rest : List BufferDecl) (images : List ImgSource) (blob : Option ByteSeq)
          (fetcher : Option β → CharSeq → Except GError ByteSeq),
          Scheme.parse urldecode uri = some (.relative p) →
          importImpl b64decode urldecode guessFormat loadImage ⟨⟨N, .uri uri⟩ :: rest, images⟩
              blob none fetcher
            = some (.error .externalReferenceInSliceImport)) := by
  refine ⟨?_, ?_, ?_⟩
  · intro uri p fetcher hparse
    exact read_parse_relative_none b64decode urldecode uri p fetcher hparse
  · intro decls blob fetcher i d uri p hget hsrc hparse bs
    exact importBuffersFrom_relative_no_ok b64decode urldecode fetcher decls 0 blob i d uri p
      hget hsrc hparse bs
  · intro δ guessFormat loadImage N uri p rest images blob fetcher hparse
    have hread : Scheme.read b64decode urldecode (none : Option β) uri fetcher
        = some (.error .externalReferenceInSliceImport) :=
      read_parse_relative_none b64decode urldecode uri p fetcher hparse
    simp only [importImpl, importBuffers, importBuffersFrom, fromSourceAndBlob, hread]
    rfl

/-- C5, witness: resolving the relative URI `"rel"` with no base
directory yields the external-reference error. -/
theorem c5_external_reference_witness :
    Scheme.read failB64 idDecode (none : Option Unit) "rel".data fetchFail
      = some (.error .externalReferenceInSliceImport) :=
  (c5_external_reference (β := Unit) failB64 idDecode).1 "rel".data "rel".data fetchFail rfl

/-- C7, counterexample to the claim as stated: with
`<mime> = "x;base64,AA"` and `<b64> = "QUJD"`, the code splits the URI at
the *first* `;base64,` occurrence and decodes the payload `"AA"` (giving
`[0]`) rather than the reference decoding `[65, 66, 67]` of `<b64>` — so
"for every value of `<mime>`" fails. -/
theorem c7_counterexample :
    Scheme.read base64RefDecode idDecode (none : Option Unit)
        ("data:".data ++ ("x;base64,AA".data ++ (";base64,".data ++ "QUJD".data))) fetchFail
        = some (.ok [0])
      ∧ base64RefDecode "QUJD".data = .ok [65, 66, 67]
      ∧ ([0] : ByteSeq) ≠ [65, 66, 67] :=
  ⟨rfl, rfl, by decide⟩

/-- C7 (corrected): for every `<mime>` in which the separator `;base64,`
does not occur as a substring (formalized: splitting `<mime>` on the
separator finds no occurrence; `<mime>` may freely contain `';'`, as in
`text/plain;charset=x`) and every `<b64>` over the base64 alphabet,
resolving `data:<mime>;base64,<b64>` yields exactly the injected base64
decoder's result on `<b64>`; a malformed payload surfaces as the
distinct `Base64` error kind. -/
theorem c7_data_uri {β : Type} (b64decode : CharSeq → Except Unit ByteSeq)
    (urldecode : CharSeq → Except Unit CharSeq) (mime b64 : CharSeq) (base : Option β)
    (fetcher : Option β → CharSeq → Except GError ByteSeq)
    (hm : findSepSplit ';' "base64,".data mime = none)
    (hb : ∀ c ∈ b64, isBase64Char c = true) :
    Scheme.read b64decode urldecode base
        ("data:".data ++ (mime ++ (";base64,".data ++ b64))) fetcher
        = some ((b64decode b64).mapError fun _ => GError.base64)
      ∧ (b64decode b64 = .error () →
          Scheme.read b64decode urldecode base
              ("data:".data ++ (mime ++ (";base64,".data ++ b64))) fetcher
            = some (.error .base64)) := by
  have hb' : ∀ c ∈ b64, ¬ c = ';' := by
    intro c hc he
    have hbc := hb c hc
    rw [he] at hbc
    exact absurd hbc (by decide)
  have hparse := parse_data_uri urldecode mime b64 hm hb'
  have h1 := read_parse_data b64decode urldecode _ b64 (some mime) base fetcher hparse
  refine ⟨h1, fun herr => ?_⟩
  rw [h1, herr]
  rfl

/-- C7, witness: `data:text/plain;charset=x;base64,QUJD` — a media type
containing `';'` but not the `;base64,` separator — resolves to the
bytes of `"ABC"`. -/
theorem c7_data_uri_witness :
    Scheme.read base64RefDecode idDecode (none : Option Unit)
        ("data:".data ++ ("text/plain;charset=x".data ++ (";base64,".data ++ "QUJD".data)))
        fetchFail
      = some (.ok [65, 66, 67]) := by
  rw [(c7_data_uri base64RefDecode idDecode "text/plain;charset=x".data "QUJD".data none
    fetchFail (by decide) (by decide)).1]
  rfl

/-- C8, counterexample to the claim as stated: for `p = "//a"` the URI
`"file:" ++ p = "file://a"` is classified as a file reference carrying
`"a"`, not the remaining string `p` — the `file://` prefix rule fires
first, so the two spellings do not both carry exactly `p`. -/
theorem c8_counterexample :
    Scheme.parse idDecode ("file:".data ++ "//a".data) = some (.file "a".data)
      ∧ "a".data ≠ "//a".data :=
  ⟨rfl, by decide⟩

/-- C8 (corrected): for every path string `p` that does not begin with
`"//"`, the URIs `file://p` and `file:p` classify to the same file
reference carrying exactly `p`; and resolving any file-reference URI
delegates to `fetcher(None, path)` — the supplied base directory is
ignored. -/
theorem c8_file_scheme {β : Type} (b64decode : CharSeq → Except Unit ByteSeq)
    (urldecode : CharSeq → Except Unit CharSeq) (p : CharSeq)
    (h : stripPrefixList ['/', '/'] p = none) :
    Scheme.parse urldecode ("file://".data ++ p) = some (.file p)
      ∧ Scheme.parse urldecode ("file:".data ++ p) = some (.file p)
      ∧ ∀ (base : Option β) (uri path : CharSeq)
          (fetcher : Option β → CharSeq → Except GError ByteSeq),
          Scheme.parse urldecode uri = some (.file path) →
          Scheme.read b64decode urldecode base uri fetcher = some (fetcher none path) := by
  refine ⟨?_, ?_, ?_⟩
  · have hcolon : ':' ∈ "file://".data ++ p := List.mem_append_left _ (by decide)
    have hd : stripPrefixList ['d', 'a', 't', 'a', ':']
        (['f', 'i', 'l', 'e', ':', '/', '/'] ++ p) = none := rfl
    have hf : stripPrefixList ['f', 'i', 'l', 'e', ':', '/', '/']
        (['f', 'i', 'l', 'e', ':', '/', '/'] ++ p) = some p :=
      stripPrefixList_append _ _
    simp only [Scheme.parse]
    rw [if_pos hcolon, hd]
    dsimp only
    rw [hf]
  · have hcolon : ':' ∈ "file:".data ++ p := List.mem_append_left _ (by decide)
    have hd : stripPrefixList ['d', 'a', 't', 'a', ':']
        (['f', 'i', 'l', 'e', ':'] ++ p) = none := rfl
    have hf7 : stripPrefixList ['f', 'i', 'l', 'e', ':', '/', '/']
        (['f', 'i', 'l', 'e', ':'] ++ p) = none := by
      have e : stripPrefixList ['f', 'i', 'l', 'e', ':', '/', '/']
          (['f', 'i', 'l', 'e', ':'] ++ p) = stripPrefixList ['/', '/'] p := rfl
      rw [e, h]
    have hf5 : stripPrefixList ['f', 'i', 'l', 'e', ':']
        (['f', 'i', 'l', 'e', ':'] ++ p) = some p :=
      stripPrefixList_append _ _
    simp only [Scheme.parse]
    rw [if_pos hcolon, hd]
    dsimp only
    rw [hf7]
    dsimp only
    rw [hf5]
  · intro base uri path fetcher hparse
    exact read_parse_file b64decode urldecode uri path base fetcher hparse

/-- C8, witness: `file://a` classifies to the file reference `a`, and
resolving it calls the fetcher with no base even when a base is
supplied. -/
theorem c8_file_scheme_witness :
    Scheme.parse idDecode ("file://".data ++ "a".data) = some (.file "a".data)
      ∧ Scheme.read failB64 idDecode (some ()) ("file://".data ++ "a".data) fetchFail
        = some (fetchFail none "a".data) := by
  have h := c8_file_scheme (β := Unit) failB64 idDecode "a".data (by decide)
  exact ⟨h.1, h.2.2 (some ()) ("file://".data ++ "a".data) "a".data fetchFail h.1⟩
